import Mathlib

/-!
Shallow embedding of the NAND-flash bit-bang reader (bitbang_ft2232.c).

The two global bus variables and the (hardware-held) data-bus direction are
collected in a state record.  Every hardware interaction (a write of the held
byte to the FTDI channel, a sampling of the live pins, a direction switch) is
recorded as an explicit event, so that the flush discipline of the protocol
is visible in the theorems.  Reads of live pins are driven by environment
streams passed to the functions that read them.  The unbounded busy-wait
loops are embedded with an explicit fuel parameter; exhausting the fuel
(result none) represents the loop not having returned yet on any bounded
prefix of the trace.
-/

namespace NandReader

/-- Pins on BDBUS0..7 (control bus), from the source defines. -/
def PIN_CLE : Nat := 0x01

def PIN_ALE : Nat := 0x02

def PIN_nCE : Nat := 0x04

def PIN_nWE : Nat := 0x08

def PIN_nRE : Nat := 0x10

def PIN_nWP : Nat := 0x20

def PIN_RDY : Nat := 0x40

def PIN_LED : Nat := 0x80

def STATUSREG_IO0 : Nat := 0x01

def EXIT_FAILURE : Nat := 1

/-- CMD_READID = 0x90 (read ID register). -/
def CMD_READID : Nat := 0x90

/-- CMD_READ1 = { 0x00, 0x30 } (page read). -/
def CMD_READ1 : Nat × Nat := (0x00, 0x30)

/-- CMD_BLOCKERASE = { 0x60, 0xD0 } (block erase). -/
def CMD_BLOCKERASE : Nat × Nat := (0x60, 0xD0)

/-- CMD_READSTATUS = 0x70 (read status). -/
def CMD_READSTATUS : Nat := 0x70

/-- onoff_t from the source. -/
inductive onoff_t
  | OFF
  | ON
  deriving DecidableEq

/-- iobus_inout_t from the source. -/
inductive iobus_inout_t
  | IOBUS_IN
  | IOBUS_OUT
  deriving DecidableEq

/-- The mutable globals of the program: the held control-bus byte, the held
I/O-bus byte, and the data-bus direction (held by the FTDI channel, set via
iobus_set_direction). -/
structure MachState where
  controlbus_value : Nat
  iobus_value : Nat
  iobus_dir : iobus_inout_t
  deriving DecidableEq

/-- Hardware-interaction events: a write of the held control byte to channel B
(controlbus_update_output), a write of the held I/O byte to channel A
(iobus_update_output), a direction switch (iobus_set_direction), a sample of
the live I/O pins (iobus_read_input), and a sample of the live control pins
(controlbus_read_input). -/
inductive Ev
  | cflush (b : Nat)
  | ioflush (b : Nat)
  | iodir (d : iobus_inout_t)
  | iosample (b : Nat)
  | csample (b : Nat)
  deriving DecidableEq

/-- controlbus_pin_set: set (val=ON) or clear (val=OFF) the bits of pin in the
held control byte.  A pure update of the global; no hardware interaction. -/
def controlbus_pin_set (pin : Nat) (val : onoff_t) (s : MachState) :
    MachState × List Ev :=
  match val with
  | onoff_t.ON => ({ s with controlbus_value := s.controlbus_value ||| pin }, [])
  | onoff_t.OFF =>
      ({ s with controlbus_value := s.controlbus_value &&& (0xFF ^^^ pin) }, [])

/-- controlbus_update_output: flush the held control byte to channel B. -/
def controlbus_update_output (s : MachState) : MachState × List Ev :=
  (s, [Ev.cflush s.controlbus_value])

/-- iobus_pin_set: set or clear the bits of pin in the held I/O byte.  A pure
update of the global; no hardware interaction. -/
def iobus_pin_set (pin : Nat) (val : onoff_t) (s : MachState) :
    MachState × List Ev :=
  match val with
  | onoff_t.ON => ({ s with iobus_value := s.iobus_value ||| pin }, [])
  | onoff_t.OFF =>
      ({ s with iobus_value := s.iobus_value &&& (0xFF ^^^ pin) }, [])

/-- iobus_set_value: overwrite the held I/O byte. -/
def iobus_set_value (value : Nat) (s : MachState) : MachState × List Ev :=
  ({ s with iobus_value := value }, [])

/-- iobus_update_output: flush the held I/O byte to channel A. -/
def iobus_update_output (s : MachState) : MachState × List Ev :=
  (s, [Ev.ioflush s.iobus_value])

/-- iobus_set_direction: switch the data bus between driven output and
released input (ftdi_set_bitmode with mask 0xFF or 0x00). -/
def iobus_set_direction (inout : iobus_inout_t) (s : MachState) :
    MachState × List Ev :=
  ({ s with iobus_dir := inout }, [Ev.iodir inout])

/-- iobus_read_input: sample the live I/O pins; the sampled byte b is supplied
by the environment. -/
def iobus_read_input (b : Nat) (s : MachState) : Nat × MachState × List Ev :=
  (b, s, [Ev.iosample b])

/-- controlbus_read_input: sample the live control pins; the sampled byte b is
supplied by the environment. -/
def controlbus_read_input (b : Nat) (s : MachState) : Nat × MachState × List Ev :=
  (b, s, [Ev.csample b])

/-- latch_command from the source: precondition checks on nCE (must be low)
and nRE (must be high), then CLE high / nWE low / command on the I/O bus /
nWE high (latching edge) / CLE low, each change flushed.  Returns
(return code, state, events); on a failed check it returns EXIT_FAILURE
without touching anything. -/
def latch_command (command : Nat) (s : MachState) : Nat × MachState × List Ev :=
  if s.controlbus_value &&& PIN_nCE ≠ 0 then (EXIT_FAILURE, s, [])
  else if s.controlbus_value &&& PIN_nRE = 0 then (EXIT_FAILURE, s, [])
  else
    let a1 := controlbus_pin_set PIN_CLE onoff_t.ON s
    let a2 := controlbus_update_output a1.1
    let a3 := controlbus_pin_set PIN_nWE onoff_t.OFF a2.1
    let a4 := controlbus_update_output a3.1
    let a5 := iobus_set_value command a4.1
    let a6 := iobus_update_output a5.1
    let a7 := controlbus_pin_set PIN_nWE onoff_t.ON a6.1
    let a8 := controlbus_update_output a7.1
    let a9 := controlbus_pin_set PIN_CLE onoff_t.OFF a8.1
    let a10 := controlbus_update_output a9.1
    (0, a10.1,
      a1.2 ++ a2.2 ++ a3.2 ++ a4.2 ++ a5.2 ++ a6.2 ++ a7.2 ++ a8.2 ++ a9.2 ++ a10.2)

/-- The per-byte body of latch_address's for loop: nWE low (flushed), the
address byte on the I/O bus (flushed), nWE back high (flushed, latching edge).
The usleep settle delays of the source have no effect on the modelled state. -/
def latch_address_loop : List Nat → MachState → MachState × List Ev
  | [], s => (s, [])
  | b :: rest, s =>
      let a1 := controlbus_pin_set PIN_nWE onoff_t.OFF s
      let a2 := controlbus_update_output a1.1
      let a3 := iobus_set_value b a2.1
      let a4 := iobus_update_output a3.1
      let a5 := controlbus_pin_set PIN_nWE onoff_t.ON a4.1
      let a6 := controlbus_update_output a5.1
      let r := latch_address_loop rest a6.1
      (r.1, a1.2 ++ a2.2 ++ a3.2 ++ a4.2 ++ a5.2 ++ a6.2 ++ r.2)

/-- latch_address from the source: precondition checks on nCE (low), CLE
(low) and nRE (high); then ALE high (flushed), the address cycles latched in
order, ALE low (flushed). -/
def latch_address (address : List Nat) (s : MachState) : Nat × MachState × List Ev :=
  if s.controlbus_value &&& PIN_nCE ≠ 0 then (EXIT_FAILURE, s, [])
  else if s.controlbus_value &&& PIN_CLE ≠ 0 then (EXIT_FAILURE, s, [])
  else if s.controlbus_value &&& PIN_nRE = 0 then (EXIT_FAILURE, s, [])
  else
    let a1 := controlbus_pin_set PIN_ALE onoff_t.ON s
    let a2 := controlbus_update_output a1.1
    let r := latch_address_loop address a2.1
    let a3 := controlbus_pin_set PIN_ALE onoff_t.OFF r.1
    let a4 := controlbus_update_output a3.1
    (0, a4.1, a1.2 ++ a2.2 ++ r.2 ++ a3.2 ++ a4.2)

/-- The per-byte body of latch_register's for loop: nRE low (flushed), sample
the live I/O pins, nRE back high (flushed).  The environment stream d supplies
the sampled bytes; the recursive call shifts the stream by one. -/
def latch_register_loop (d : Nat → Nat) : Nat → MachState → List Nat × MachState × List Ev
  | 0, s => ([], s, [])
  | n + 1, s =>
      let a1 := controlbus_pin_set PIN_nRE onoff_t.OFF s
      let a2 := controlbus_update_output a1.1
      let rd := iobus_read_input (d 0) a2.1
      let a3 := controlbus_pin_set PIN_nRE onoff_t.ON rd.2.1
      let a4 := controlbus_update_output a3.1
      let r := latch_register_loop (fun j => d (j + 1)) n a4.1
      (rd.1 :: r.1, r.2.1, a1.2 ++ a2.2 ++ rd.2.2 ++ a3.2 ++ a4.2 ++ r.2.2)

/-- latch_register from the source (the data-output primitive): precondition
checks on nCE (low), nWE (high) and ALE (low); then the data bus is switched
to input direction, reg_length bytes are shifted out one per nRE toggle, and
the data bus is switched back to output direction.  Returns
(return code, bytes read, state, events). -/
def latch_register (reg_length : Nat) (d : Nat → Nat) (s : MachState) :
    Nat × List Nat × MachState × List Ev :=
  if s.controlbus_value &&& PIN_nCE ≠ 0 then (EXIT_FAILURE, [], s, [])
  else if s.controlbus_value &&& PIN_nWE = 0 then (EXIT_FAILURE, [], s, [])
  else if s.controlbus_value &&& PIN_ALE ≠ 0 then (EXIT_FAILURE, [], s, [])
  else
    let a1 := iobus_set_direction iobus_inout_t.IOBUS_IN s
    let r := latch_register_loop d reg_length a1.1
    let a2 := iobus_set_direction iobus_inout_t.IOBUS_OUT r.2.1
    (0, r.1, a2.1, a1.2 ++ r.2.2 ++ a2.2)

/-- Address cycle 0 of get_address_cycle_map_x8: mem_address and 0x000000FF. -/
def addr_cycle0 (mem_address : Nat) : Nat := mem_address &&& 0x000000FF

/-- Address cycle 1: (mem_address and 0x00000F00) shifted right by 8. -/
def addr_cycle1 (mem_address : Nat) : Nat := (mem_address &&& 0x00000F00) >>> 8

/-- Address cycle 2: (mem_address and 0x000FF000) shifted right by 12. -/
def addr_cycle2 (mem_address : Nat) : Nat := (mem_address &&& 0x000FF000) >>> 12

/-- Address cycle 3: (mem_address and 0x0FF00000) shifted right by 20. -/
def addr_cycle3 (mem_address : Nat) : Nat := (mem_address &&& 0x0FF00000) >>> 20

/-- Address cycle 4: (mem_address and 0x30000000) shifted right by 28. -/
def addr_cycle4 (mem_address : Nat) : Nat := (mem_address &&& 0x30000000) >>> 28

/-- get_address_cycle_map_x8: the five address cycles written into
addr_cylces[0..4]. -/
def get_address_cycle_map_x8 (mem_address : Nat) : List Nat :=
  [addr_cycle0 mem_address, addr_cycle1 mem_address, addr_cycle2 mem_address,
   addr_cycle3 mem_address, addr_cycle4 mem_address]

/-- The C library strncmp restricted to the byte lists the program compares:
at most n characters are compared; the scan stops at the first differing
character (nonzero result) or at a terminating null found in equal positions
(zero result).  The program only ever applies it to 5-byte buffers. -/
def strncmp : Nat → List Nat → List Nat → Int
  | 0, _, _ => 0
  | _ + 1, [], _ => 0
  | _ + 1, _ :: _, [] => 0
  | n + 1, x :: xs, y :: ys =>
      if x ≠ y then (x : Int) - (y : Int)
      else if x = 0 then 0
      else strncmp n xs ys

/-- The expected ID register content from check_ID_register. -/
def ID_register_exp : List Nat := [0xAD, 0xDC, 0x10, 0x95, 0x54]

/-- check_ID_register: compares the retrieved ID register bytes against the
expected signature with strncmp(expected, actual, 5); reports true (the PASS
print) exactly when strncmp returns 0. -/
def check_ID_register (ID_register : List Nat) : Bool :=
  strncmp 5 ID_register_exp ID_register == 0

/-- The do/while busy-poll loop shared by dump_memory and erase_block: sample
the control bus, stop when the sample has the RDY bit set, otherwise repeat.
The source loop is unbounded; here fuel bounds the number of iterations
looked at, and none means the loop has not returned within fuel samples.
Returns the list of sampling events the loop performed. -/
def busy_wait (sb : Nat → Nat) : Nat → Option (List Ev)
  | 0 => none
  | fuel + 1 =>
      if sb 0 &&& PIN_RDY ≠ 0 then some [Ev.csample (sb 0)]
      else (busy_wait (fun j => sb (j + 1)) fuel).map (fun l => Ev.csample (sb 0) :: l)

/-- The linear address erase_block computes:
mem_address = 2048 * 64 * nBlockId on uint32_t. -/
def erase_block_mem_address (nBlockId : Nat) : Nat :=
  (2048 * 64 * nBlockId) % 2 ^ 32

/-- erase_block from the source: disable write protection (nWP on, not
flushed by itself), latch the erase-setup command 0x60, latch address cycles
2..4 of the mapped address (row address only), latch the erase-confirm
command 0xD0, busy-wait on RDY, latch the read-status command 0x70, shift the
status register out, re-enable write protection in the held byte (nWP off,
never flushed), and return 1 when the status fail bit I/O0 is set, else 0.
The sb stream supplies the busy-poll samples, d the data-output samples,
status_uninit the indeterminate initial value of the local status_register
variable (read only if the data-output primitive refused to run). -/
def erase_block (nBlockId : Nat) (sb d : Nat → Nat) (status_uninit : Nat)
    (fuel : Nat) (s : MachState) : Option (Nat × MachState × List Ev) :=
  let mem_address := erase_block_mem_address nBlockId
  let a1 := controlbus_pin_set PIN_nWP onoff_t.ON s
  let r1 := latch_command CMD_BLOCKERASE.1 a1.1
  let address := [addr_cycle2 mem_address, addr_cycle3 mem_address,
                  addr_cycle4 mem_address]
  let r2 := latch_address address r1.2.1
  let r3 := latch_command CMD_BLOCKERASE.2 r2.2.1
  match busy_wait sb fuel with
  | none => none
  | some ebw =>
      let r4 := latch_command CMD_READSTATUS r3.2.1
      let r5 := latch_register 1 d r4.2.1
      let status_register := r5.2.1.headD status_uninit
      let a2 := controlbus_pin_set PIN_nWP onoff_t.OFF r5.2.2.1
      let ret := if status_register &&& STATUSREG_IO0 ≠ 0 then 1 else 0
      some (ret, a2.1,
        a1.2 ++ r1.2.2 ++ r2.2.2 ++ r3.2.2 ++ ebw ++ r4.2.2 ++ r5.2.2.2 ++ a2.2)

/-- The per-page body of dump_memory (the page-read sequence): map the
address, latch command 0x00, latch the five address cycles, latch command
0x30, busy-wait on RDY, shift out the 2112-byte page. -/
def read_page (mem_address : Nat) (sb d : Nat → Nat) (fuel : Nat)
    (s : MachState) : Option (List Nat × MachState × List Ev) :=
  let addr_cylces := get_address_cycle_map_x8 mem_address
  let r1 := latch_command CMD_READ1.1 s
  let r2 := latch_address addr_cylces r1.2.1
  let r3 := latch_command CMD_READ1.2 r2.2.1
  match busy_wait sb fuel with
  | none => none
  | some ebw =>
      let r4 := latch_register 2112 d r3.2.1
      some (r4.2.1, r4.2.2.1, r1.2.2 ++ r2.2.2 ++ r3.2.2 ++ ebw ++ r4.2.2.2)

/-- The byte carried by the last control-bus flush of a trace, if any: the
control-bus value the hardware is left holding. -/
def last_cflush : List Ev → Option Nat
  | [] => none
  | Ev.cflush b :: rest =>
      match last_cflush rest with
      | none => some b
      | some x => some x
  | _ :: rest => last_cflush rest

/-- Protocol-level events, read off a low-level trace: a command byte latched
(rising nWE edge with CLE high), an address byte latched (rising nWE edge
with ALE high), a data byte sampled from the bus, a busy-poll sample. -/
inductive PEv
  | cmd (b : Nat)
  | addr (b : Nat)
  | sampled (b : Nat)
  | busy (b : Nat)
  deriving DecidableEq

/-- Abstraction of a low-level trace to protocol events.  The first two
arguments track the control byte the hardware last saw and the byte held on
the I/O bus; a command or address latch is recognized on a flush that raises
nWE (the latching edge the datasheet prescribes) with CLE resp. ALE high. -/
def absEvents : Nat → Nat → List Ev → List PEv
  | _, _, [] => []
  | cb, io, Ev.cflush b :: rest =>
      (if cb &&& PIN_nWE = 0 ∧ b &&& PIN_nWE ≠ 0 then
        (if b &&& PIN_CLE ≠ 0 then [PEv.cmd io]
         else if b &&& PIN_ALE ≠ 0 then [PEv.addr io]
         else [])
       else []) ++ absEvents b io rest
  | cb, _, Ev.ioflush b :: rest => absEvents cb b rest
  | cb, io, Ev.iosample b :: rest => PEv.sampled b :: absEvents cb io rest
  | cb, io, Ev.csample b :: rest => PEv.busy b :: absEvents cb io rest
  | cb, io, Ev.iodir _ :: rest => absEvents cb io rest

end NandReader

namespace NandReader

/-! Bitwise helper lemmas used throughout. -/

lemma or_and_distrib (x y z : Nat) :
    (x ||| y) &&& z = (x &&& z) ||| (y &&& z) := by
  apply Nat.eq_of_testBit_eq
  intro i
  simp only [Nat.testBit_and, Nat.testBit_or]
  cases hx : x.testBit i <;> cases hy : y.testBit i <;> cases hz : z.testBit i <;> rfl

lemma and_set_and (x p m : Nat) (hpm : p &&& m = 0) :
    ((x &&& m) ||| p) &&& m = x &&& m := by
  rw [or_and_distrib, Nat.and_assoc, Nat.and_self, hpm, Nat.or_zero]

lemma and_shiftLeft_shiftRight (a m k : Nat) :
    (a &&& (m <<< k)) >>> k = (a >>> k) &&& m := by
  apply Nat.eq_of_testBit_eq
  intro i
  simp [Nat.testBit_shiftRight, Nat.testBit_and, Nat.testBit_shiftLeft,
    Nat.le_add_right, Nat.add_sub_cancel_left]

lemma testBit_ge8 (x i : Nat) (hx : x < 256) (hi : 8 ≤ i) : x.testBit i = false := by
  apply Nat.testBit_lt_two_pow
  exact lt_of_lt_of_le hx (by
    calc (256 : Nat) = 2 ^ 8 := by norm_num
      _ ≤ 2 ^ i := Nat.pow_le_pow_right (by norm_num) hi)

lemma range_map_succ_shift {α : Type} (f : Nat → α) (n : Nat) :
    (List.range (n + 1)).map f = f 0 :: (List.range n).map (fun j => f (j + 1)) := by
  rw [List.range_succ_eq_map, List.map_cons, List.map_map]
  simp [Function.comp_def, Nat.succ_eq_add_one]

/-- Claim C1: get_address_cycle_map_x8 maps every 32-bit linear address to
exactly the five cycles
[a and 0xFF, (a shr 8) and 0x0F, (a shr 12) and 0xFF, (a shr 20) and 0xFF,
(a shr 28) and 0x03]; in particular address 0 maps to five zero cycles and
0x10000000 maps to [0,0,0,0,1].  The embedding of the function is pure, so
the output depends only on the address. -/
theorem claim_C1 (a : Nat) (h : a < 2 ^ 32) :
    get_address_cycle_map_x8 a =
      [a &&& 0xFF, (a >>> 8) &&& 0x0F, (a >>> 12) &&& 0xFF,
       (a >>> 20) &&& 0xFF, (a >>> 28) &&& 0x03] ∧
    get_address_cycle_map_x8 0x00000000 = [0x00, 0x00, 0x00, 0x00, 0x00] ∧
    get_address_cycle_map_x8 0x10000000 = [0x00, 0x00, 0x00, 0x00, 0x01] := by
  refine ⟨?_, by decide, by decide⟩
  simp only [get_address_cycle_map_x8, addr_cycle0, addr_cycle1, addr_cycle2,
    addr_cycle3, addr_cycle4]
  rw [(by decide : (0x00000F00 : Nat) = 0x0F <<< 8), and_shiftLeft_shiftRight,
    (by decide : (0x000FF000 : Nat) = 0xFF <<< 12), and_shiftLeft_shiftRight,
    (by decide : (0x0FF00000 : Nat) = 0xFF <<< 20), and_shiftLeft_shiftRight,
    (by decide : (0x30000000 : Nat) = 0x03 <<< 28), and_shiftLeft_shiftRight]

theorem claim_C1_witness :
    (0x12345678 : Nat) < 2 ^ 32 ∧
    (get_address_cycle_map_x8 0x12345678 =
      [0x12345678 &&& 0xFF, (0x12345678 >>> 8) &&& 0x0F, (0x12345678 >>> 12) &&& 0xFF,
       (0x12345678 >>> 20) &&& 0xFF, (0x12345678 >>> 28) &&& 0x03] ∧
    get_address_cycle_map_x8 0x00000000 = [0x00, 0x00, 0x00, 0x00, 0x00] ∧
    get_address_cycle_map_x8 0x10000000 = [0x00, 0x00, 0x00, 0x00, 0x01]) :=
  ⟨by decide, claim_C1 0x12345678 (by decide)⟩

/-- Claim C2 (the code contradicts it): erase_block computes the erased
linear address as 2048 * 64 * nBlockId, although its own comment says
"(2K + 64) bytes x 64 pages per block" and the page length of the program is
2112 bytes.  At block id 1 the code produces 131072 and not 64 * 2112 =
135168. -/
theorem claim_C2_address_diverges :
    erase_block_mem_address 1 = 131072 ∧
    1 * 64 * 2112 = 135168 ∧
    erase_block_mem_address 1 ≠ 1 * 64 * 2112 := by
  decide

/-- Claim C4: whenever nCE is high or nRE is low, latch_command fails with
the non-zero result EXIT_FAILURE and leaves the whole machine state
untouched (held I/O byte, data-bus direction and control byte) and flushes
nothing. -/
theorem claim_C4 (command : Nat) (s : MachState)
    (h : s.controlbus_value &&& PIN_nCE ≠ 0 ∨ s.controlbus_value &&& PIN_nRE = 0) :
    latch_command command s = (EXIT_FAILURE, s, []) ∧ EXIT_FAILURE ≠ 0 := by
  refine ⟨?_, by decide⟩
  rcases h with h | h
  · rw [latch_command, if_pos h]
  · by_cases h2 : s.controlbus_value &&& PIN_nCE ≠ 0
    · rw [latch_command, if_pos h2]
    · rw [latch_command, if_neg h2, if_pos h]

theorem claim_C4_witness :
    latch_command 0x90 ⟨0x04, 0x55, iobus_inout_t.IOBUS_OUT⟩ =
      (EXIT_FAILURE, ⟨0x04, 0x55, iobus_inout_t.IOBUS_OUT⟩, []) ∧ EXIT_FAILURE ≠ 0 :=
  claim_C4 0x90 ⟨0x04, 0x55, iobus_inout_t.IOBUS_OUT⟩ (Or.inl (by decide))

/-- Claim C7: check_ID_register reports a match exactly when the five
returned bytes equal the expected signature [0xAD, 0xDC, 0x10, 0x95, 0x54]
componentwise; every sequence differing in at least one position (zero bytes
included) is reported as a mismatch.  The result is a total Boolean, not an
abort. -/
theorem claim_C7 (b0 b1 b2 b3 b4 : Nat) :
    check_ID_register [b0, b1, b2, b3, b4] = true ↔
      [b0, b1, b2, b3, b4] = ID_register_exp := by
  simp only [check_ID_register, ID_register_exp, strncmp, beq_iff_eq, List.cons.injEq,
    and_true]
  split_ifs <;> first | exact (False.elim (by assumption)) | omega

/-- Claim C10: the two pin-set operations set exactly the masked bits on ON,
clear exactly the masked bits on OFF, leave every bit outside the mask and
every other state component unchanged, are idempotent on the held byte, and
interact with no hardware (empty event list). -/
theorem claim_C10 (p : Nat) (val : onoff_t) (s : MachState)
    (hp : p < 256) (hcb : s.controlbus_value < 256) (hio : s.iobus_value < 256) :
    (∀ i, ((controlbus_pin_set p onoff_t.ON s).1.controlbus_value).testBit i
        = (s.controlbus_value.testBit i || p.testBit i)) ∧
    (∀ i, ((controlbus_pin_set p onoff_t.OFF s).1.controlbus_value).testBit i
        = (s.controlbus_value.testBit i && !p.testBit i)) ∧
    (∀ i, ((iobus_pin_set p onoff_t.ON s).1.iobus_value).testBit i
        = (s.iobus_value.testBit i || p.testBit i)) ∧
    (∀ i, ((iobus_pin_set p onoff_t.OFF s).1.iobus_value).testBit i
        = (s.iobus_value.testBit i && !p.testBit i)) ∧
    (controlbus_pin_set p val (controlbus_pin_set p val s).1).1.controlbus_value
        = (controlbus_pin_set p val s).1.controlbus_value ∧
    (iobus_pin_set p val (iobus_pin_set p val s).1).1.iobus_value
        = (iobus_pin_set p val s).1.iobus_value ∧
    (controlbus_pin_set p val s).1.iobus_value = s.iobus_value ∧
    (controlbus_pin_set p val s).1.iobus_dir = s.iobus_dir ∧
    (iobus_pin_set p val s).1.controlbus_value = s.controlbus_value ∧
    (iobus_pin_set p val s).1.iobus_dir = s.iobus_dir ∧
    (controlbus_pin_set p val s).2 = [] ∧
    (iobus_pin_set p val s).2 = [] := by
  have hclear : ∀ x : Nat, x < 256 →
      ∀ i, (x &&& (0xFF ^^^ p)).testBit i = (x.testBit i && !p.testBit i) := by
    intro x hx i
    rcases Nat.lt_or_ge i 8 with hi | hi
    · have h255 : (0xFF : Nat).testBit i = true := by interval_cases i <;> decide
      rw [Nat.testBit_and, Nat.testBit_xor, h255]
      cases hb : p.testBit i <;> simp [hb]
    · rw [Nat.testBit_and, testBit_ge8 x i hx hi]
      simp
  refine ⟨?_, ?_, ?_, ?_, ?_, ?_, ?_, ?_, ?_, ?_, ?_, ?_⟩
  · intro i; simp [controlbus_pin_set, Nat.testBit_or]
  · intro i; simpa [controlbus_pin_set] using hclear s.controlbus_value hcb i
  · intro i; simp [iobus_pin_set, Nat.testBit_or]
  · intro i; simpa [iobus_pin_set] using hclear s.iobus_value hio i
  · cases val <;> simp [controlbus_pin_set, Nat.and_assoc, Nat.and_self,
      Nat.or_assoc, Nat.or_self]
  · cases val <;> simp [iobus_pin_set, Nat.and_assoc, Nat.and_self,
      Nat.or_assoc, Nat.or_self]
  · cases val <;> rfl
  · cases val <;> rfl
  · cases val <;> rfl
  · cases val <;> rfl
  · cases val <;> rfl
  · cases val <;> rfl

theorem claim_C10_witness :
    (∀ i, ((controlbus_pin_set 0x20 onoff_t.ON ⟨0x18, 0x55, iobus_inout_t.IOBUS_OUT⟩).1.controlbus_value).testBit i
        = ((0x18 : Nat).testBit i || (0x20 : Nat).testBit i)) ∧
    (∀ i, ((controlbus_pin_set 0x20 onoff_t.OFF ⟨0x18, 0x55, iobus_inout_t.IOBUS_OUT⟩).1.controlbus_value).testBit i
        = ((0x18 : Nat).testBit i && !(0x20 : Nat).testBit i)) ∧
    (∀ i, ((iobus_pin_set 0x20 onoff_t.ON ⟨0x18, 0x55, iobus_inout_t.IOBUS_OUT⟩).1.iobus_value).testBit i
        = ((0x55 : Nat).testBit i || (0x20 : Nat).testBit i)) ∧
    (∀ i, ((iobus_pin_set 0x20 onoff_t.OFF ⟨0x18, 0x55, iobus_inout_t.IOBUS_OUT⟩).1.iobus_value).testBit i
        = ((0x55 : Nat).testBit i && !(0x20 : Nat).testBit i)) ∧
    (controlbus_pin_set 0x20 onoff_t.ON
        (controlbus_pin_set 0x20 onoff_t.ON ⟨0x18, 0x55, iobus_inout_t.IOBUS_OUT⟩).1).1.controlbus_value
        = (controlbus_pin_set 0x20 onoff_t.ON ⟨0x18, 0x55, iobus_inout_t.IOBUS_OUT⟩).1.controlbus_value ∧
    (iobus_pin_set 0x20 onoff_t.ON
        (iobus_pin_set 0x20 onoff_t.ON ⟨0x18, 0x55, iobus_inout_t.IOBUS_OUT⟩).1).1.iobus_value
        = (iobus_pin_set 0x20 onoff_t.ON ⟨0x18, 0x55, iobus_inout_t.IOBUS_OUT⟩).1.iobus_value ∧
    (controlbus_pin_set 0x20 onoff_t.ON ⟨0x18, 0x55, iobus_inout_t.IOBUS_OUT⟩).1.iobus_value = 0x55 ∧
    (controlbus_pin_set 0x20 onoff_t.ON ⟨0x18, 0x55, iobus_inout_t.IOBUS_OUT⟩).1.iobus_dir
        = iobus_inout_t.IOBUS_OUT ∧
    (iobus_pin_set 0x20 onoff_t.ON ⟨0x18, 0x55, iobus_inout_t.IOBUS_OUT⟩).1.controlbus_value = 0x18 ∧
    (iobus_pin_set 0x20 onoff_t.ON ⟨0x18, 0x55, iobus_inout_t.IOBUS_OUT⟩).1.iobus_dir
        = iobus_inout_t.IOBUS_OUT ∧
    (controlbus_pin_set 0x20 onoff_t.ON ⟨0x18, 0x55, iobus_inout_t.IOBUS_OUT⟩).2 = [] ∧
    (iobus_pin_set 0x20 onoff_t.ON ⟨0x18, 0x55, iobus_inout_t.IOBUS_OUT⟩).2 = [] :=
  claim_C10 0x20 onoff_t.ON ⟨0x18, 0x55, iobus_inout_t.IOBUS_OUT⟩ (by decide) (by decide) (by decide)

end NandReader

namespace NandReader

lemma busy_wait_none (sb : Nat → Nat) :
    ∀ fuel, (∀ n, sb n &&& PIN_RDY = 0) → busy_wait sb fuel = none := by
  intro fuel
  induction fuel generalizing sb with
  | zero => intro _; rfl
  | succ n ih =>
      intro hall
      simp only [busy_wait]
      rw [if_neg (by simp [hall 0])]
      rw [ih (fun j => sb (j + 1)) (fun m => hall (m + 1))]
      rfl

lemma busy_wait_isSome (sb : Nat → Nat) :
    ∀ fuel, (∃ j, j < fuel ∧ sb j &&& PIN_RDY ≠ 0) →
      (busy_wait sb fuel).isSome = true := by
  intro fuel
  induction fuel generalizing sb with
  | zero => rintro ⟨j, hj, _⟩; omega
  | succ n ih =>
      rintro ⟨j, hj, hrdy⟩
      simp only [busy_wait]
      by_cases h0 : sb 0 &&& PIN_RDY ≠ 0
      · rw [if_pos h0]; rfl
      · rw [if_neg h0]
        cases j with
        | zero => exact absurd hrdy h0
        | succ k =>
            have hs := ih (fun j => sb (j + 1)) ⟨k, by omega, hrdy⟩
            cases hbw : busy_wait (fun j => sb (j + 1)) n with
            | none => rw [hbw] at hs; simp at hs
            | some l => rfl

lemma busy_wait_eq (sb : Nat → Nat) :
    ∀ k fuel, k < fuel → (∀ j, j < k → sb j &&& PIN_RDY = 0) →
      sb k &&& PIN_RDY ≠ 0 →
      busy_wait sb fuel =
        some ((List.range (k + 1)).map (fun j => Ev.csample (sb j))) := by
  intro k
  induction k generalizing sb with
  | zero =>
      intro fuel hf _ hr
      cases fuel with
      | zero => omega
      | succ n =>
          simp only [busy_wait]
          rw [if_pos hr]
          simp [List.range_succ]
  | succ k ih =>
      intro fuel hf hj hr
      cases fuel with
      | zero => omega
      | succ n =>
          simp only [busy_wait]
          rw [if_neg (by simp [hj 0 (by omega)])]
          rw [ih (fun j => sb (j + 1)) n (by omega) (fun j hjk => hj (j + 1) (by omega)) hr]
          simp only [Option.map_some']
          congr 1
          rw [range_map_succ_shift (fun j => Ev.csample (sb j)) (k + 1)]

lemma busy_wait_some_inv (sb : Nat → Nat) :
    ∀ fuel evs, busy_wait sb fuel = some evs →
      ∃ k, (∀ j, j < k → sb j &&& PIN_RDY = 0) ∧ sb k &&& PIN_RDY ≠ 0 ∧
        evs = (List.range (k + 1)).map (fun j => Ev.csample (sb j)) := by
  intro fuel
  induction fuel generalizing sb with
  | zero => intro evs h; exact absurd h (by simp [busy_wait])
  | succ n ih =>
      intro evs h
      simp only [busy_wait] at h
      by_cases h0 : sb 0 &&& PIN_RDY ≠ 0
      · rw [if_pos h0] at h
        refine ⟨0, fun j hj => absurd hj (Nat.not_lt_zero j), h0, ?_⟩
        simp at h
        simp [← h, List.range_succ]
      · rw [if_neg h0] at h
        cases hbw : busy_wait (fun j => sb (j + 1)) n with
        | none => rw [hbw] at h; simp at h
        | some l =>
            rw [hbw] at h
            simp only [Option.map_some', Option.some.injEq] at h
            obtain ⟨k, hk1, hk2, hk3⟩ := ih (fun j => sb (j + 1)) l hbw
            refine ⟨k + 1, ?_, hk2, ?_⟩
            · intro j hjk
              cases j with
              | zero => simpa using h0
              | succ m => exact hk1 m (by omega)
            · rw [← h, hk3]
              rw [range_map_succ_shift (fun j => Ev.csample (sb j)) (k + 1)]

/-- Claim C5: the busy-poll loop of dump_memory and erase_block returns
exactly when a control-bus sample has the RDY bit set: if some sample has RDY
set, a large enough fuel makes it return; if no sample ever has RDY set, it
returns for no fuel at all (the source loop never returns); and whenever it
returns, the samples it consumed are precisely the prefix up to and including
the first RDY-set sample. -/
theorem claim_C5 (sb : Nat → Nat) :
    ((∃ n, sb n &&& PIN_RDY ≠ 0) → ∃ fuel evs, busy_wait sb fuel = some evs) ∧
    ((∀ n, sb n &&& PIN_RDY = 0) → ∀ fuel, busy_wait sb fuel = none) ∧
    (∀ fuel evs, busy_wait sb fuel = some evs →
      ∃ k, (∀ j, j < k → sb j &&& PIN_RDY = 0) ∧ sb k &&& PIN_RDY ≠ 0 ∧
        evs = (List.range (k + 1)).map (fun j => Ev.csample (sb j))) := by
  refine ⟨?_, ?_, ?_⟩
  · rintro ⟨n, hn⟩
    refine ⟨n + 1, ?_⟩
    exact Option.isSome_iff_exists.mp (busy_wait_isSome sb (n + 1) ⟨n, by omega, hn⟩)
  · intro hall fuel
    exact busy_wait_none sb fuel hall
  · intro fuel evs h
    exact busy_wait_some_inv sb fuel evs h

theorem claim_C5_witness :
    (∃ fuel evs, busy_wait (fun _ => 0x40) fuel = some evs) ∧
    busy_wait (fun _ => 0x00) 5 = none ∧
    (∃ k, (∀ j, j < k → (fun _ : Nat => 0x40) j &&& PIN_RDY = 0) ∧
      (fun _ : Nat => 0x40) k &&& PIN_RDY ≠ 0 ∧
      [Ev.csample 0x40] =
        (List.range (k + 1)).map (fun j => Ev.csample ((fun _ : Nat => 0x40) j))) :=
  ⟨(claim_C5 (fun _ => 0x40)).1 ⟨0, by decide⟩,
   (claim_C5 (fun _ => 0x00)).2.1 (fun n => by decide) 5,
   (claim_C5 (fun _ => 0x40)).2.2 1 [Ev.csample 0x40] (by decide)⟩

end NandReader

namespace NandReader

lemma latch_register_loop_spec :
    ∀ (n : Nat) (d : Nat → Nat) (s : MachState),
      latch_register_loop d n s =
        ((List.range n).map d,
         (if n = 0 then s
          else { s with controlbus_value :=
                   (s.controlbus_value &&& (0xFF ^^^ PIN_nRE)) ||| PIN_nRE }),
         ((List.range n).map (fun j =>
             [Ev.cflush (s.controlbus_value &&& (0xFF ^^^ PIN_nRE)),
              Ev.iosample (d j),
              Ev.cflush ((s.controlbus_value &&& (0xFF ^^^ PIN_nRE)) ||| PIN_nRE)])).flatten) := by
  intro n
  induction n with
  | zero => intro d s; simp [latch_register_loop]
  | succ n ih =>
      intro d s
      have hstab : ((s.controlbus_value &&& (0xFF ^^^ PIN_nRE)) ||| PIN_nRE) &&&
          (0xFF ^^^ PIN_nRE) = s.controlbus_value &&& (0xFF ^^^ PIN_nRE) :=
        and_set_and s.controlbus_value PIN_nRE (0xFF ^^^ PIN_nRE) (by decide)
      simp only [latch_register_loop, controlbus_pin_set, controlbus_update_output,
        iobus_read_input]
      rw [ih]
      simp only [hstab]
      refine congrArg₂ Prod.mk ?_ (congrArg₂ Prod.mk ?_ ?_)
      · rw [range_map_succ_shift d n]
      · simp only [Nat.succ_ne_zero, if_false]
        split <;> rfl
      · rw [range_map_succ_shift (fun j =>
            [Ev.cflush (s.controlbus_value &&& (0xFF ^^^ PIN_nRE)),
             Ev.iosample (d j),
             Ev.cflush ((s.controlbus_value &&& (0xFF ^^^ PIN_nRE)) ||| PIN_nRE)]) n]
        simp

end NandReader

namespace NandReader

/-- Claim C6: with its preconditions satisfied (nCE low, nWE high, ALE low),
latch_register succeeds, switches the data bus to input direction, samples
exactly n bytes (one per nRE low/high toggle pair, both flushed), and leaves
the data-bus direction driven-output on completion — also for n = 0. -/
theorem claim_C6 (n : Nat) (d : Nat → Nat) (s : MachState)
    (h1 : s.controlbus_value &&& PIN_nCE = 0)
    (h2 : s.controlbus_value &&& PIN_nWE ≠ 0)
    (h3 : s.controlbus_value &&& PIN_ALE = 0) :
    (latch_register n d s).1 = 0 ∧
    (latch_register n d s).2.1 = (List.range n).map d ∧
    (latch_register n d s).2.2.1.iobus_dir = iobus_inout_t.IOBUS_OUT ∧
    (latch_register n d s).2.2.2 =
      Ev.iodir iobus_inout_t.IOBUS_IN ::
        ((List.range n).map (fun j =>
           [Ev.cflush (s.controlbus_value &&& (0xFF ^^^ PIN_nRE)),
            Ev.iosample (d j),
            Ev.cflush ((s.controlbus_value &&& (0xFF ^^^ PIN_nRE)) ||| PIN_nRE)])).flatten ++
        [Ev.iodir iobus_inout_t.IOBUS_OUT] := by
  have hgoal : latch_register n d s =
      (0, (latch_register_loop d n { s with iobus_dir := iobus_inout_t.IOBUS_IN }).1,
       { (latch_register_loop d n { s with iobus_dir := iobus_inout_t.IOBUS_IN }).2.1 with
           iobus_dir := iobus_inout_t.IOBUS_OUT },
       Ev.iodir iobus_inout_t.IOBUS_IN ::
         ((latch_register_loop d n { s with iobus_dir := iobus_inout_t.IOBUS_IN }).2.2 ++
           [Ev.iodir iobus_inout_t.IOBUS_OUT])) := by
    rw [latch_register, if_neg (by simp [h1]), if_neg (by simp [h2]),
      if_neg (by simp [h3])]
    rfl
  rw [hgoal, latch_register_loop_spec]
  refine ⟨rfl, rfl, ?_, by simp⟩
  split <;> rfl

theorem claim_C6_witness :
    ((latch_register 0 (fun j => 0xC0 + j) ⟨0x18, 0x55, iobus_inout_t.IOBUS_OUT⟩).1 = 0 ∧
     (latch_register 0 (fun j => 0xC0 + j) ⟨0x18, 0x55, iobus_inout_t.IOBUS_OUT⟩).2.1 =
       (List.range 0).map (fun j => 0xC0 + j) ∧
     (latch_register 0 (fun j => 0xC0 + j) ⟨0x18, 0x55, iobus_inout_t.IOBUS_OUT⟩).2.2.1.iobus_dir =
       iobus_inout_t.IOBUS_OUT ∧
     (latch_register 0 (fun j => 0xC0 + j) ⟨0x18, 0x55, iobus_inout_t.IOBUS_OUT⟩).2.2.2 =
       Ev.iodir iobus_inout_t.IOBUS_IN ::
         ((List.range 0).map (fun j =>
            [Ev.cflush ((0x18 : Nat) &&& (0xFF ^^^ PIN_nRE)),
             Ev.iosample (0xC0 + j),
             Ev.cflush (((0x18 : Nat) &&& (0xFF ^^^ PIN_nRE)) ||| PIN_nRE)])).flatten ++
         [Ev.iodir iobus_inout_t.IOBUS_OUT]) ∧
    ((latch_register 2 (fun j => 0xC0 + j) ⟨0x18, 0x55, iobus_inout_t.IOBUS_OUT⟩).1 = 0 ∧
     (latch_register 2 (fun j => 0xC0 + j) ⟨0x18, 0x55, iobus_inout_t.IOBUS_OUT⟩).2.1 =
       (List.range 2).map (fun j => 0xC0 + j) ∧
     (latch_register 2 (fun j => 0xC0 + j) ⟨0x18, 0x55, iobus_inout_t.IOBUS_OUT⟩).2.2.1.iobus_dir =
       iobus_inout_t.IOBUS_OUT ∧
     (latch_register 2 (fun j => 0xC0 + j) ⟨0x18, 0x55, iobus_inout_t.IOBUS_OUT⟩).2.2.2 =
       Ev.iodir iobus_inout_t.IOBUS_IN ::
         ((List.range 2).map (fun j =>
            [Ev.cflush ((0x18 : Nat) &&& (0xFF ^^^ PIN_nRE)),
             Ev.iosample (0xC0 + j),
             Ev.cflush (((0x18 : Nat) &&& (0xFF ^^^ PIN_nRE)) ||| PIN_nRE)])).flatten ++
         [Ev.iodir iobus_inout_t.IOBUS_OUT]) :=
  ⟨claim_C6 0 (fun j => 0xC0 + j) ⟨0x18, 0x55, iobus_inout_t.IOBUS_OUT⟩
      (by decide) (by decide) (by decide),
   claim_C6 2 (fun j => 0xC0 + j) ⟨0x18, 0x55, iobus_inout_t.IOBUS_OUT⟩
      (by decide) (by decide) (by decide)⟩

end NandReader

namespace NandReader

/-- Claim C8: for every status byte the data-output step returns, erase_block
returns 1 (failure) exactly when the fail bit I/O0 is set and 0 (success)
otherwise, and on both paths the held control byte has the nWP bit cleared
(write protection re-enabled in memory) when the function returns.  The entry
state is the session bus state the driver establishes (control byte 0x18:
nWE and nRE high, everything else low). -/
theorem claim_C8 (nBlockId : Nat) (v su : Nat) (sb d : Nat → Nat) (fuel k : Nat)
    (hj : ∀ j, j < k → sb j &&& PIN_RDY = 0) (hk : sb k &&& PIN_RDY ≠ 0)
    (hfuel : k < fuel) :
    (erase_block nBlockId sb d su fuel ⟨0x18, v, iobus_inout_t.IOBUS_OUT⟩).map
        (fun r => (r.1, r.2.1.controlbus_value &&& PIN_nWP)) =
      some ((if d 0 &&& STATUSREG_IO0 ≠ 0 then 1 else 0), 0) := by
  have hbw := busy_wait_eq sb k fuel hfuel hj hk
  simp +decide [erase_block, latch_command, latch_address, latch_address_loop,
    latch_register, latch_register_loop_spec, controlbus_pin_set,
    controlbus_update_output, iobus_set_value, iobus_update_output,
    iobus_set_direction, iobus_read_input, CMD_BLOCKERASE, CMD_READSTATUS,
    PIN_CLE, PIN_ALE, PIN_nCE, PIN_nWE, PIN_nRE, PIN_nWP, EXIT_FAILURE,
    List.range_succ, List.range_zero, hbw]

end NandReader

namespace NandReader

theorem claim_C8_witness :
    (erase_block 3 (fun _ => 0x40) (fun _ => 0x01) 0x5A 1
        ⟨0x18, 0x77, iobus_inout_t.IOBUS_OUT⟩).map
        (fun r => (r.1, r.2.1.controlbus_value &&& PIN_nWP)) =
      some ((if (fun _ : Nat => 0x01) 0 &&& STATUSREG_IO0 ≠ 0 then 1 else 0), 0) :=
  claim_C8 3 0x77 0x5A (fun _ => 0x40) (fun _ => 0x01) 1 0
    (fun j hj => absurd hj (Nat.not_lt_zero j)) (by decide) (by decide)

/-- Claim C3 (the code contradicts it): in erase_block the final nWP change
is not flushed.  Running erase_block from the session bus state shows that
the function returns with the nWP bit cleared in the held control byte while
the last byte actually flushed to the control-bus hardware still has nWP set:
the write-protect re-enable never reaches the hardware before the return. -/
theorem claim_C3_last_flush_keeps_nWP :
    (erase_block 0 (fun _ => 0x40) (fun _ => 0x00) 0 1
        ⟨0x18, 0, iobus_inout_t.IOBUS_OUT⟩).map
        (fun r => (r.2.1.controlbus_value &&& PIN_nWP,
                   (last_cflush r.2.2).map (fun b => b &&& PIN_nWP))) =
      some (0, some PIN_nWP) := by
  decide

end NandReader

namespace NandReader

lemma absEvents_csample_map (cb io : Nat) (f : Nat → Nat) (l : List Nat)
    (rest : List Ev) :
    absEvents cb io (l.map (fun b => Ev.csample (f b)) ++ rest) =
      l.map (fun b => PEv.busy (f b)) ++ absEvents cb io rest := by
  induction l with
  | nil => simp
  | cons a t ih => simp [absEvents, ih]

lemma absEvents_read_chunks (io : Nat) (d : Nat → Nat) (l : List Nat)
    (rest : List Ev) :
    absEvents 0x18 io
        ((l.map (fun j =>
            [Ev.cflush 0x08, Ev.iosample (d j), Ev.cflush 0x18])).flatten ++ rest) =
      l.map (fun j => PEv.sampled (d j)) ++ absEvents 0x18 io rest := by
  induction l with
  | nil => simp
  | cons a t ih =>
      simp only [List.map_cons, List.flatten_cons, List.cons_append, List.append_assoc]
      simp +decide [absEvents]
      exact ih

set_option maxRecDepth 8000 in
/-- Claim C9: from the session bus state, every page read of dump_memory
produces exactly the protocol sequence: command 0x00 latched, the five
address cycles of the mapped linear address latched in order, command 0x30
latched, busy-poll samples up to and including the first RDY-set sample, and
exactly 2112 data bytes sampled — and nothing else; the returned page buffer
is exactly those 2112 bytes. -/
theorem claim_C9 (a v : Nat) (sb d : Nat → Nat) (fuel k : Nat)
    (hj : ∀ j, j < k → sb j &&& PIN_RDY = 0) (hk : sb k &&& PIN_RDY ≠ 0)
    (hfuel : k < fuel) :
    (read_page a sb d fuel ⟨0x18, v, iobus_inout_t.IOBUS_OUT⟩).map
        (fun r => (r.1, absEvents 0x18 v r.2.2)) =
      some ((List.range 2112).map d,
        PEv.cmd CMD_READ1.1 ::
          ((get_address_cycle_map_x8 a).map PEv.addr ++
            PEv.cmd CMD_READ1.2 ::
              ((List.range (k + 1)).map (fun j => PEv.busy (sb j)) ++
                (List.range 2112).map (fun j => PEv.sampled (d j))))) := by
  have hbw := busy_wait_eq sb k fuel hfuel hj hk
  have o1 : (0x18 : Nat) ||| PIN_CLE = 0x19 := by decide
  have e1 : (0x19 : Nat) &&& (0xFF ^^^ PIN_nWE) = 0x11 := by decide
  have o2 : (0x11 : Nat) ||| PIN_nWE = 0x19 := by decide
  have e2 : (0x19 : Nat) &&& (0xFF ^^^ PIN_CLE) = 0x18 := by decide
  have o3 : (0x18 : Nat) ||| PIN_ALE = 0x1A := by decide
  have e3 : (0x1A : Nat) &&& (0xFF ^^^ PIN_nWE) = 0x12 := by decide
  have o4 : (0x12 : Nat) ||| PIN_nWE = 0x1A := by decide
  have e4 : (0x1A : Nat) &&& (0xFF ^^^ PIN_ALE) = 0x18 := by decide
  have e5 : (0x18 : Nat) &&& (0xFF ^^^ PIN_nRE) = 0x08 := by decide
  have o5 : (0x08 : Nat) ||| PIN_nRE = 0x18 := by decide
  simp +decide [read_page, latch_command, latch_address, latch_address_loop,
    latch_register, latch_register_loop_spec, controlbus_pin_set,
    controlbus_update_output, iobus_set_value, iobus_update_output,
    iobus_set_direction, iobus_read_input, get_address_cycle_map_x8, CMD_READ1,
    hbw, o1, e1, o2, e2, o3, e3, o4, e4, e5, o5]
  generalize List.range 2112 = L
  simp +decide [absEvents, absEvents_csample_map, absEvents_read_chunks]

end NandReader

namespace NandReader

theorem claim_C9_witness :
    (read_page 0 (fun _ => 0x40) (fun _ => 0xAB) 1
        ⟨0x18, 0, iobus_inout_t.IOBUS_OUT⟩).map
        (fun r => (r.1, absEvents 0x18 0 r.2.2)) =
      some ((List.range 2112).map (fun _ => 0xAB),
        PEv.cmd CMD_READ1.1 ::
          ((get_address_cycle_map_x8 0).map PEv.addr ++
            PEv.cmd CMD_READ1.2 ::
              ((List.range (0 + 1)).map (fun j => PEv.busy ((fun _ : Nat => 0x40) j)) ++
                (List.range 2112).map (fun j => PEv.sampled ((fun _ : Nat => 0xAB) j))))) :=
  claim_C9 0 0 (fun _ => 0x40) (fun _ => 0xAB) 1 0
    (fun j hj => absurd hj (Nat.not_lt_zero j)) (by decide) (by decide)

end NandReader
